import Mathlib

/-!
# A verification development for the `tau` agent runtime

This file gives a shallow embedding, in Lean 4, of the parts of the `tau`
repository (crates `tau-ai` and `tau-agent`) that its specification makes
claims about, and proves or refutes those claims.

Conventions of the embedding:

* Rust `String` / `&str` values are modelled as `Str := List Char`
  (sequences of Unicode scalar values).  the byte-oriented operations of Rust
  (`str::len`, byte-range slicing) are modelled through the UTF-8 byte size
  of each scalar (`Char.utf8Size`), so that a byte index falling inside a
  multi-byte scalar is observable (it is a panic in Rust and is modelled as
  `none` here).
* Rust machine integers are modelled as `Nat` with an explicit wrap
  (`% 2^32` for `u32`, `% 2^64` for `usize`) at every operation where the
  Rust program can overflow.
* `serde_json::Value` is modelled by the inductive `Json` (numbers are
  restricted to integers, which covers every use the embedded code makes
  of them; objects keep their entries as an association list).
* Fallible / panicking code returns `Option` (`none` = panic); code that
  returns `Result` in Rust returns `Except`.
* Case-insensitive (`(?i)`) regex matching is realised by matching the
  ASCII-lowercased subject against lowercase pattern literals, which agrees
  with the Rust behaviour on all ASCII text (the Lean `Char.toLower` is the
  ASCII lowercase map).
-/

/-- Definition: `Str` models a Rust `String` as its sequence of Unicode scalar values. -/
abbrev Str := List Char

/-- The UTF-8 byte length of a string (Rust `str::len`). -/
def utf8Len (s : Str) : Nat := (s.map Char.utf8Size).sum

/-- Does `needle` occur at the very start of `hay`? -/
def startsWithStr : Str → Str → Bool
  | [], _ => true
  | _ :: _, [] => false
  | a :: as, b :: bs => a = b && startsWithStr as bs

/-- Does `needle` occur anywhere in `hay`?  (Rust `str::contains`.) -/
def hasSub (needle : Str) : Str → Bool
  | [] => startsWithStr needle []
  | c :: rest => startsWithStr needle (c :: rest) || hasSub needle rest

/-- ASCII lowercasing of a string, modelling `str::to_lowercase` and the
`(?i)` case folding on ASCII text (both also fold non-ASCII characters,
e.g. the Kelvin sign to `k`, which this char-wise ASCII map fixes; the
theorems relying on it only consult ASCII case variants). -/
def lowerStr (s : Str) : Str := s.map Char.toLower

/-- Definition: `sliceBytes s n` models the Rust byte slice `&s[..n]`: the prefix of `s`
whose UTF-8 encoding is exactly `n` bytes, or `none` (a Rust panic) when `n`
is not a character boundary of `s`. -/
def sliceBytes : Str → Nat → Option Str
  | _, 0 => some []
  | [], _ + 1 => none
  | c :: rest, n + 1 =>
    if c.utf8Size ≤ n + 1 then
      (sliceBytes rest (n + 1 - c.utf8Size)).map (c :: ·)
    else none

/-- Join a list of strings with a separator (Rust `[String]::join`). -/
def joinSep (sep : Str) : List Str → Str
  | [] => []
  | [x] => x
  | x :: y :: rest => x ++ sep ++ joinSep sep (y :: rest)

/-- Definition: `replaceAllF fuel needle repl s` is the worker for `replaceAll`; `fuel`
bounds the number of characters of `s` still to be scanned. -/
def replaceAllF (needle repl : Str) : Nat → Str → Str
  | 0, s => s
  | _ + 1, [] => []
  | fuel + 1, c :: rest =>
    if startsWithStr needle (c :: rest) && !needle.isEmpty then
      repl ++ replaceAllF needle repl fuel ((c :: rest).drop needle.length)
    else
      c :: replaceAllF needle repl fuel rest

/-- Replace every (non-overlapping, leftmost-first) occurrence of `needle` in
`s` by `repl`, modelling Rust `str::replace`.  One unit of fuel per character
of `s` is enough because every step consumes at least one character. -/
def replaceAll (needle repl s : Str) : Str := replaceAllF needle repl s.length s

/-- Definition: `serde_json::Value`, with numbers restricted to integers. -/
inductive Json where
  | null : Json
  | bool : Bool → Json
  | num : Int → Json
  | str : Str → Json
  | arr : List Json → Json
  | obj : List (Str × Json) → Json

/-- JSON string escaping as `serde_json` performs it: `"` and `\` get a
backslash, the common control characters get their short escapes, any other
control character becomes `\u00XX`. -/
def jsonEscapeChar (c : Char) : Str :=
  if c = '"' then ['\\', '"']
  else if c = '\\' then ['\\', '\\']
  else if c = '\n' then ['\\', 'n']
  else if c = '\r' then ['\\', 'r']
  else if c = '\t' then ['\\', 't']
  else if c = '\x08' then ['\\', 'b']
  else if c = '\x0c' then ['\\', 'f']
  else if c.val < 0x20 then
    ['\\', 'u', '0', '0', (Nat.digitChar (c.val.toNat / 16)), (Nat.digitChar (c.val.toNat % 16))]
  else [c]

/-- Decimal rendering of an integer, as `serde_json` prints integer numbers. -/
def intToStr (n : Int) : Str :=
  if n < 0 then '-' :: (Nat.toDigits 10 n.natAbs) else Nat.toDigits 10 n.natAbs

mutual
/-- Compact serialization of a `Json` value (`serde_json::to_string`). -/
def jsonToStr : Json → Str
  | .null => "null".data
  | .bool true => "true".data
  | .bool false => "false".data
  | .num n => intToStr n
  | .str s => '"' :: (s.flatMap jsonEscapeChar) ++ ['"']
  | .arr xs => '[' :: joinSep [','] (jsonListToStr xs) ++ [']']
  | .obj kvs => '\x7b' :: joinSep [','] (jsonObjToStr kvs) ++ ['\x7d']

/-- Serialization of the elements of a JSON array. -/
def jsonListToStr : List Json → List Str
  | [] => []
  | x :: xs => jsonToStr x :: jsonListToStr xs

/-- Serialization of the entries of a JSON object. -/
def jsonObjToStr : List (Str × Json) → List Str
  | [] => []
  | (k, v) :: kvs =>
    ('"' :: (k.flatMap jsonEscapeChar) ++ ['"', ':'] ++ jsonToStr v) :: jsonObjToStr kvs
end

/-- Object-field lookup, modelling `serde_json::Value::get(key)`. -/
def Json.get (v : Json) (key : Str) : Option Json :=
  match v with
  | .obj kvs => (kvs.find? (fun kv => kv.1 == key)).map (·.2)
  | _ => none

/-- Definition: `serde_json::Value::as_str`. -/
def Json.asStr : Json → Option Str
  | .str s => some s
  | _ => none

/-! ## The message model (`tau-ai/src/types.rs`) -/

/-- Token usage counts (`Usage` in `types.rs`); all fields are `u32`. -/
structure Usage where
  input : Nat := 0
  output : Nat := 0
  cache_read : Nat := 0
  cache_write : Nat := 0
  thinking : Nat := 0

/-- Definition: `StopReason` in `types.rs`. -/
inductive StopReason where
  | stop | length | toolUse | error | aborted

/-- Content blocks in messages (`Content` in `types.rs`). -/
inductive Content where
  | text : Str → Content
  | image : (data : Str) → (mime_type : Str) → Content
  | thinking : Str → Content
  | toolCall : (id : Str) → (name : Str) → (arguments : Json) → Content

/-- Metadata of assistant messages (`AssistantMetadata` in `types.rs`).
Wall-clock timestamps are irrelevant to every claim; they are carried as
plain integers. -/
structure AssistantMetadata where
  api : Option Str := none
  provider : Option Str := none
  model : Option Str := none
  usage : Usage := {}
  stop_reason : Option StopReason := none
  error_message : Option Str := none
  timestamp : Int := 0

/-- Messages (`Message` in `types.rs`). -/
inductive Message where
  | user : (content : List Content) → (timestamp : Int) → Message
  | assistant : (content : List Content) → (metadata : AssistantMetadata) → Message
  | toolResult : (tool_call_id : Str) → (tool_name : Str) → (content : List Content) →
      (is_error : Bool) → (timestamp : Int) → Message

/-- Definition: `Message::user(text)`: one text block.  The wall-clock timestamp the Rust
code attaches is modelled as `0`; no claim observes it. -/
def Message.mkUser (text : Str) : Message := .user [.text text] 0

/-- Definition: `Content::as_text`. -/
def Content.as_text : Content → Option Str
  | .text t => some t
  | _ => none

/-- The content blocks of a message (`Message::content`). -/
def Message.contentOf : Message → List Content
  | .user c _ => c
  | .assistant c _ => c
  | .toolResult _ _ c _ _ => c

/-- Definition: `Message::tool_calls`: the `(id, name, arguments)` triples of an
tool-call blocks of an assistant message. -/
def Message.toolCallsOf : Message → List (Str × Str × Json)
  | .assistant content _ =>
    content.filterMap (fun c => match c with
      | .toolCall id name args => some (id, name, args)
      | _ => none)
  | _ => []

/-- Definition: `Message::text`: the concatenation of the text blocks. -/
def Message.textOf (m : Message) : Str :=
  joinSep [] (m.contentOf.filterMap Content.as_text)

/-! ## Token estimation (`tau-agent/src/compaction.rs`, lines 69–98)

`u32` results wrap at `2^32`; the `usize` character count wraps at `2^64`
(Rust release-mode wrapping arithmetic). -/

/-- Definition: `2^32`, the modulus of `u32` arithmetic. -/
def M32 : Nat := 4294967296

/-- Definition: `2^64`, the modulus of `usize` arithmetic. -/
def M64 : Nat := 18446744073709551616

/-- Definition: `content_char_count`: despite its name the Rust function sums the UTF-8
**byte** lengths (`str::len`) of the blocks; images count a flat 4800. -/
def content_char_count (content : List Content) : Nat :=
  ((content.map (fun c => match c with
    | .text text => utf8Len text
    | .thinking thinking => utf8Len thinking
    | .toolCall _ name arguments => utf8Len name + utf8Len (jsonToStr arguments)
    | .image _ _ => 4800)).sum) % M64

/-- Definition: `estimate_tokens`: `chars / 4`, cast to `u32`. -/
def estimate_tokens (m : Message) : Nat :=
  (content_char_count m.contentOf / 4) % M32

/-- Definition: `estimate_total_tokens`: the `u32` sum over the messages
(`iter().map(estimate_tokens).sum()`, which folds with the wrapping `u32`
addition). -/
def estimate_total_tokens (messages : List Message) : Nat :=
  messages.foldl (fun acc m => (acc + estimate_tokens m) % M32) 0

/-! ## Message serialization for the summarization prompt
(`tau-agent/src/compaction.rs`, lines 100–275).

The Rust code truncates with **byte-range** slices (`&text[..2000]`,
`&s[..100]`); these panic when the byte index is not a character boundary,
which the model reflects by returning `none`. -/

/-- Definition: `content_to_text`: text blocks verbatim, images as `"[image]"`,
joined with the empty separator. -/
def content_to_text (content : List Content) : Str :=
  joinSep [] (content.filterMap (fun c => match c with
    | .text text => some text
    | .image _ _ => some "[image]".data
    | _ => none))

/-- Definition: `format_tool_args`: render a JSON object as `k="v", k2=v2`, truncating
string values at 100 **bytes** (`&s[..100]`, a panic — `none` — when byte 100
is inside a multi-byte character). -/
def format_tool_args (args : Json) : Option Str :=
  match args with
  | .obj kvs =>
    (kvs.mapM (fun (kv : Str × Json) =>
      (match kv.2 with
       | .str s =>
         if utf8Len s > 100 then
           (sliceBytes s 100).map (fun t => '"' :: t ++ "...\"".data)
         else
           some ('"' :: s ++ ['"'])
       | other =>
         let s := jsonToStr other
         if utf8Len s > 100 then
           (sliceBytes s 100).map (fun t => t ++ "...".data)
         else
           some s).map (fun val => kv.1 ++ "=".data ++ val))).map (joinSep ", ".data)
  | _ => some (jsonToStr args)

/-- The serialization of one message inside `serialize_messages_for_summary`
(the body of the `for msg in messages` loop). -/
def serializeOneMessage : Message → Option Str
  | .user content _ =>
    let text := content_to_text content
    some (if text.isEmpty then [] else "[User]: ".data ++ text ++ ['\n'])
  | .assistant content _ =>
    let thinking_parts := content.filterMap (fun c => match c with
      | .thinking thinking => some thinking
      | _ => none)
    let text_parts := content.filterMap (fun c => match c with
      | .text text => some text
      | _ => none)
    (content.filterMap (fun c => match c with
      | .toolCall _ name arguments => some (name, arguments)
      | _ => none)
     |>.mapM (fun nc => (format_tool_args nc.2).map
        (fun args_str => nc.1 ++ ['('] ++ args_str ++ [')']))).map (fun tool_calls =>
      (if thinking_parts.isEmpty then []
       else "[Assistant thinking]: ".data ++ joinSep [' '] thinking_parts ++ ['\n']) ++
      (if text_parts.isEmpty then []
       else "[Assistant]: ".data ++ joinSep [] text_parts ++ ['\n']) ++
      (if tool_calls.isEmpty then []
       else "[Assistant tool calls]: ".data ++ joinSep "; ".data tool_calls ++ ['\n']))
  | .toolResult _ tool_name content is_error _ =>
    let text := content_to_text content
    let label := if is_error then "[Tool error (".data ++ tool_name ++ ")]: ".data
                 else "[Tool result (".data ++ tool_name ++ ")]: ".data
    if utf8Len text > 2000 then
      (sliceBytes text 2000).map (fun t => label ++ t ++ "...(truncated)".data ++ ['\n'])
    else
      some (label ++ text ++ ['\n'])

/-- Definition: `serialize_messages_for_summary` (`none` = the Rust code panics on a
byte-slice falling inside a multi-byte character). -/
def serialize_messages_for_summary (messages : List Message) : Option Str :=
  (messages.mapM serializeOneMessage).map (joinSep [])

/-- Tool names that perform read-only file operations (`READ_TOOLS`). -/
def READ_TOOLS : List Str := ["read".data, "glob".data, "grep".data, "list".data]

/-- Tool names that perform file modifications (`WRITE_TOOLS`). -/
def WRITE_TOOLS : List Str := ["write".data, "edit".data]

/-- One step of `extract_file_operations`: fold a tool-call block into the
`(read_files, modified_files)` accumulators, de-duplicating. -/
def extractFileOpsStep (acc : List Str × List Str) (c : Content) : List Str × List Str :=
  match c with
  | .toolCall _ name arguments =>
    if READ_TOOLS.contains name then
      match (arguments.get "path".data).bind Json.asStr with
      | some path => if acc.1.contains path then acc else (acc.1 ++ [path], acc.2)
      | none => acc
    else if WRITE_TOOLS.contains name then
      let acc2 :=
        match (arguments.get "path".data).bind Json.asStr with
        | some path => if acc.2.contains path then acc else (acc.1, acc.2 ++ [path])
        | none => acc
      match (arguments.get "file_path".data).bind Json.asStr with
      | some path => if acc2.2.contains path then acc2 else (acc2.1, acc2.2 ++ [path])
      | none => acc2
    else acc
  | _ => acc

/-- Definition: `extract_file_operations`: walk the tool calls of every assistant message,
collecting de-duplicated `path` / `file_path` arguments in first-seen order. -/
def extract_file_operations (messages : List Message) : List Str × List Str :=
  messages.foldl (fun acc m =>
    match m with
    | .assistant content _ => content.foldl extractFileOpsStep acc
    | _ => acc) ([], [])

/-! ## Cut-point selection (`tau-agent/src/compaction.rs`, lines 277–377) -/

/-- Configuration for context compaction (`CompactionConfig`). -/
structure CompactionConfig where
  enabled : Bool := true
  reserve_tokens : Nat := 16384
  keep_recent_tokens : Nat := 20000

/-- Result of a compaction operation (`CompactionResult`). -/
structure CompactionResult where
  summary : Str
  first_kept_index : Nat
  tokens_before : Nat
  read_files : List Str
  modified_files : List Str

/-- Result of finding a cut point (`CutPointResult`). -/
structure CutPointResult where
  first_kept_index : Nat
  turn_start_index : Option Nat
  is_split_turn : Bool

/-- The out-of-range placeholder for `getD`; every indexed access the code
performs is in range, so its value is never observed. -/
def dfltMsg : Message := .user [] 0

/-- Is the message a `ToolResult`? -/
def isToolResultMsg : Message → Bool
  | .toolResult .. => true
  | _ => false

/-- Is the message an `Assistant` message? -/
def isAssistantMsg : Message → Bool
  | .assistant .. => true
  | _ => false

/-- Is the message a `User` message? -/
def isUserMsg : Message → Bool
  | .user .. => true
  | _ => false

/-- The backward token-accumulating walk of `find_cut_point`: starting at
index `i` with accumulator `acc` (a wrapping `u32` sum), walk down towards
index 0; on the first index where the accumulated estimate reaches
`keep_recent_tokens`, answer `some (i + 1)`; `none` when the walk finishes
without reaching it. -/
def cutWalk (messages : List Message) (keep_recent_tokens : Nat) : Nat → Nat → Option Nat
  | acc, 0 =>
    let acc' := (acc + estimate_tokens (messages.getD 0 dfltMsg)) % M32
    if keep_recent_tokens ≤ acc' then some 1 else none
  | acc, i + 1 =>
    let acc' := (acc + estimate_tokens (messages.getD (i + 1) dfltMsg)) % M32
    if keep_recent_tokens ≤ acc' then some (i + 2)
    else cutWalk messages keep_recent_tokens acc' i

/-- The forward walk of `find_cut_point`: the number of leading `ToolResult`
messages of the list. -/
def skipToolResults : List Message → Nat
  | [] => 0
  | m :: rest => if isToolResultMsg m then 1 + skipToolResults rest else 0

/-- Definition: `has_tool_calls_with_results`: does the assistant message at `idx` carry
tool calls and is it immediately followed by a `ToolResult`? -/
def has_tool_calls_with_results (messages : List Message) (idx : Nat) : Bool :=
  match messages.getD idx dfltMsg with
  | .assistant content _ =>
    (content.any (fun c => match c with | .toolCall .. => true | _ => false))
      && decide (idx + 1 < messages.length)
      && isToolResultMsg (messages.getD (idx + 1) dfltMsg)
  | _ => false

/-- Definition: `find_turn_start`: walk backwards from `from` past contiguous
`ToolResult` / `Assistant` messages to the first message of the turn group. -/
def find_turn_start (messages : List Message) : Nat → Nat
  | 0 => 0
  | i + 1 =>
    match messages.getD i dfltMsg with
    | .toolResult .. => find_turn_start messages i
    | .assistant .. => find_turn_start messages i
    | _ => i + 1

/-- Definition: `find_cut_point` (`compaction.rs`, lines 282–349). -/
def find_cut_point (messages : List Message) (keep_recent_tokens : Nat) :
    Option CutPointResult :=
  if messages.length < 2 then none
  else
    let cut0 := (cutWalk messages keep_recent_tokens 0 (messages.length - 1)).getD
      messages.length
    if cut0 ≤ 1 then none
    else
      let step2 : Option Nat :=
        if cut0 ≥ messages.length then
          let c := messages.length - 2
          if c ≤ 1 then none else some c
        else some cut0
      match step2 with
      | none => none
      | some cut_index =>
        let first_kept := cut_index + skipToolResults (messages.drop cut_index)
        if first_kept ≥ messages.length then none
        else
          let is_split_turn := isAssistantMsg (messages.getD first_kept dfltMsg)
            && decide (0 < first_kept)
            && has_tool_calls_with_results messages first_kept
          some { first_kept_index := first_kept
                 turn_start_index :=
                   if is_split_turn then some (find_turn_start messages first_kept) else none
                 is_split_turn := is_split_turn }

/-! ## Summarization and compaction (`tau-agent/src/compaction.rs`, lines
379–573, and `Agent::run_compaction`, `tau-agent/src/agent.rs` lines 248–280)

The nested LLM call is made through the `Transport` trait; the embedding
abstracts one transport round trip into an `LlmOracle`, a function from the
prompt to the observable outcome of `call_summarization_llm`: an error when
opening the stream, an `Error` event on the stream, or the final
`MessageEnd` text. -/

/-- Definition: `SUMMARIZATION_PROMPT` (the Rust `\x7bconversation\x7d`-style holes kept
verbatim; apostrophes written as `\x27`). -/
def summarizationTemplate : Str :=
  ("Please provide a detailed summary of this conversation so far. The summary should:\n\n1. **Goal**: What is the user\x27s primary objective?\n2. **Progress**: What has been accomplished so far? List specific changes made.\n3. **Key Decisions**: What important technical decisions were made and why?\n4. **Next Steps**: What was the user about to do or ask about next?\n5. **Critical Context**: Any important constraints, preferences, or context that would be lost.\n6. **Files Read**: {read_files}\n7. **Files Modified**: {modified_files}\n\nFormat your response as a structured summary using the headers above. Be thorough but concise. Focus on information that would be needed to continue the conversation seamlessly.\n\n<conversation>\n{conversation}\n</conversation>").data

/-- Definition: `UPDATE_SUMMARIZATION_PROMPT`. -/
def updateSummarizationTemplate : Str :=
  ("Below is an existing summary of an earlier portion of this conversation, followed by new messages that occurred after that summary. Please create an updated, comprehensive summary that integrates both.\n\n<previous-summary>\n{previous_summary}\n</previous-summary>\n\nPlease provide an updated summary that incorporates the new messages below. The summary should:\n\n1. **Goal**: What is the user\x27s primary objective? (update if it has evolved)\n2. **Progress**: What has been accomplished so far? Include both previous and new progress.\n3. **Key Decisions**: What important technical decisions were made and why?\n4. **Next Steps**: What was about to happen next?\n5. **Critical Context**: Any important constraints, preferences, or context.\n6. **Files Read**: {read_files}\n7. **Files Modified**: {modified_files}\n\n<new-messages>\n{conversation}\n</new-messages>").data

/-- Definition: `TURN_PREFIX_SUMMARIZATION_PROMPT` (the partial-turn summary prompt). -/
def splitTurnTemplate : Str :=
  ("The following is the beginning of a conversation turn that was split during context compaction. Please provide a very brief summary of what was happening in this partial turn, focusing on what the assistant was doing and what tool calls were made.\n\n<partial-turn>\n{conversation}\n</partial-turn>").data

/-- The observable outcome of one summarization round trip through the
transport. -/
inductive LlmOutcome where
  | openError : Str → LlmOutcome
  | streamError : Str → LlmOutcome
  | done : Str → LlmOutcome

/-- An oracle standing for `transport.run` inside
`call_summarization_llm`: maps the prompt text to the round-trip outcome. -/
def LlmOracle := Str → LlmOutcome

/-- Definition: `call_summarization_llm` (`compaction.rs`, lines 530–573): open errors
and stream `Error` events become `Err` with the corresponding prefix, an
empty final text is an error, otherwise the final `MessageEnd` text. -/
def call_summarization_llm (llm : LlmOracle) (prompt : Str) : Except Str Str :=
  match llm prompt with
  | .openError e => .error ("Compaction LLM call failed: ".data ++ e)
  | .streamError e => .error ("Compaction LLM error: ".data ++ e)
  | .done t =>
    if t.isEmpty then .error "Compaction LLM returned empty response".data
    else .ok t

/-- Definition: `compact` (`compaction.rs`, lines 443–527).  `none` models a panic inside
the byte-slicing serialization helpers; `some (.error e)` the `Err` return;
`some (.ok r)` success. -/
def compact (messages : List Message) (config : CompactionConfig) (llm : LlmOracle)
    (previous_summary : Option Str) : Option (Except Str CompactionResult) :=
  let tokens_before := estimate_total_tokens messages
  match find_cut_point messages config.keep_recent_tokens with
  | none => some (.error "Not enough messages to compact".data)
  | some cut =>
    let messages_to_summarize := messages.take cut.first_kept_index
    let rw := extract_file_operations messages_to_summarize
    match serialize_messages_for_summary messages_to_summarize with
    | none => none
    | some conversation_text =>
      let read_files_str := if rw.1.isEmpty then "(none)".data else joinSep ", ".data rw.1
      let modified_files_str := if rw.2.isEmpty then "(none)".data else joinSep ", ".data rw.2
      let prompt :=
        match previous_summary with
        | some prev_summary =>
          replaceAll "{modified_files}".data modified_files_str
            (replaceAll "{read_files}".data read_files_str
              (replaceAll "{conversation}".data conversation_text
                (replaceAll "{previous_summary}".data prev_summary
                  updateSummarizationTemplate)))
        | none =>
          replaceAll "{modified_files}".data modified_files_str
            (replaceAll "{read_files}".data read_files_str
              (replaceAll "{conversation}".data conversation_text summarizationTemplate))
      let finishWith (pre : Str) : Option (Except Str CompactionResult) :=
        match call_summarization_llm llm prompt with
        | .error e => some (.error e)
        | .ok main_summary =>
          some (.ok { summary := pre ++ main_summary
                      first_kept_index := cut.first_kept_index
                      tokens_before := tokens_before
                      read_files := rw.1
                      modified_files := rw.2 })
      if cut.is_split_turn then
        match cut.turn_start_index with
        | some turn_start =>
          let turn_prefixMessages := (messages.take cut.first_kept_index).drop turn_start
          match serialize_messages_for_summary turn_prefixMessages with
          | none => none
          | some turn_prefixText =>
            match call_summarization_llm llm
                (replaceAll "{conversation}".data turn_prefixText splitTurnTemplate) with
            | .error e => some (.error e)
            | .ok turn_summary =>
              finishWith ("## Split Turn Context\n".data ++ turn_summary ++ "\n\n".data)
        | none => finishWith []
      else finishWith []

/-- The conversation state fields `run_compaction` touches
(`Conversation` in `tau-agent/src/conversation.rs`). -/
structure ConversationState where
  messages : List Message
  previous_summary : Option Str

/-- Errors of the `tau-agent` crate (`tau-agent/src/error.rs`). -/
inductive AgentError where
  | compaction : Str → AgentError
  | other : Str → AgentError

/-- The outcome of `Agent::run_compaction`: the conversation state after the
call together with its `Result`. -/
structure RunCompactionOutcome where
  state : ConversationState
  result : Except AgentError Unit

/-- Definition: `Agent::run_compaction` (`agent.rs`, lines 248–280): on success the
messages become `[summary-user-message] ++ messages[first_kept_index..]` and
`previous_summary` is set; on failure the conversation is untouched and the
`compact` error is wrapped in `AgentError.compaction`.  `none` models a panic
(either inside `compact`, or of the `messages[k..]` slice when `k` exceeds
the message count). -/
def run_compaction (st : ConversationState) (config : CompactionConfig)
    (llm : LlmOracle) : Option RunCompactionOutcome :=
  match compact st.messages config llm st.previous_summary with
  | none => none
  | some (.error e) => some { state := st, result := .error (.compaction e) }
  | some (.ok r) =>
    if r.first_kept_index ≤ st.messages.length then
      some { state :=
              { messages :=
                  Message.mkUser ("<context-summary>\n".data ++ r.summary ++
                    "\n</context-summary>".data) :: st.messages.drop r.first_kept_index
                previous_summary := some r.summary }
             result := .ok () }
    else none

/-! ## The stream assembler (`tau-ai/src/stream.rs`)

Only the parts a claim mentions are embedded: the event type, the buffer
state, `ensure_buffer` and `process_event`.  (`build` and `current_content`
render the buffers into `Content` blocks — for tool calls via a JSON parse
of the accumulated text; no claim depends on that rendering, and the buffer
at index `i` *is* the content block at index `i`.) -/

/-- Definition: `ContentBuffer` in `stream.rs`. -/
inductive ContentBuffer where
  | text : Str → ContentBuffer
  | thinking : Str → ContentBuffer
  | toolCall : (id : Str) → (name : Str) → (arguments_json : Str) → ContentBuffer

/-- Streaming events (`MessageEvent` in `stream.rs`). -/
inductive MessageEvent where
  | start : Message → MessageEvent
  | textStart : (content_index : Nat) → MessageEvent
  | textDelta : (content_index : Nat) → (delta : Str) → MessageEvent
  | textEnd : (content_index : Nat) → (text : Str) → MessageEvent
  | thinkingStart : (content_index : Nat) → MessageEvent
  | thinkingDelta : (content_index : Nat) → (delta : Str) → MessageEvent
  | thinkingEnd : (content_index : Nat) → (thinking : Str) → MessageEvent
  | toolCallStart : (content_index : Nat) → (id : Str) → (name : Str) → MessageEvent
  | toolCallDelta : (content_index : Nat) → (delta : Str) → MessageEvent
  | toolCallEnd : (content_index : Nat) → (id : Str) → (name : Str) →
      (arguments : Json) → MessageEvent
  | done : Message → StopReason → Usage → MessageEvent
  | error : Str → MessageEvent

/-- The state of `MessageBuilder` (the dead `content` field of the Rust
struct is omitted). -/
structure MessageBuilder where
  content_buffers : List ContentBuffer := []
  usage : Usage := {}
  stop_reason : Option StopReason := none

/-- Definition: `MessageBuilder::ensure_buffer`: pad with empty text buffers until the
index exists, then overwrite it with `dflt`. -/
def ensure_buffer (bufs : List ContentBuffer) (index : Nat) (dflt : ContentBuffer) :
    List ContentBuffer :=
  (bufs ++ List.replicate (index + 1 - bufs.length) (ContentBuffer.text [])).set index dflt

/-- A `*Delta` event: append to the buffer at `index` when it exists and has
the matching kind; otherwise do nothing (`get_mut` + `if let`). -/
def applyDelta (bufs : List ContentBuffer) (index : Nat)
    (app : ContentBuffer → Option ContentBuffer) : List ContentBuffer :=
  match bufs.get? index with
  | some b => match app b with
    | some b2 => bufs.set index b2
    | none => bufs
  | none => bufs

/-- An `*End` event: overwrite the buffer at `index` only when
`index < content_buffers.len()`. -/
def applyEnd (bufs : List ContentBuffer) (index : Nat) (b : ContentBuffer) :
    List ContentBuffer :=
  if index < bufs.length then bufs.set index b else bufs

/-- Definition: `MessageBuilder::process_event` (`stream.rs`, lines 100–191). -/
def process_event (st : MessageBuilder) (event : MessageEvent) : MessageBuilder :=
  match event with
  | .textStart i => { st with content_buffers := ensure_buffer st.content_buffers i (.text []) }
  | .textDelta i delta =>
    { st with content_buffers := applyDelta st.content_buffers i (fun b => match b with
        | .text t => some (.text (t ++ delta))
        | _ => none) }
  | .textEnd i text => { st with content_buffers := applyEnd st.content_buffers i (.text text) }
  | .thinkingStart i =>
    { st with content_buffers := ensure_buffer st.content_buffers i (.thinking []) }
  | .thinkingDelta i delta =>
    { st with content_buffers := applyDelta st.content_buffers i (fun b => match b with
        | .thinking t => some (.thinking (t ++ delta))
        | _ => none) }
  | .thinkingEnd i thinking =>
    { st with content_buffers := applyEnd st.content_buffers i (.thinking thinking) }
  | .toolCallStart i id name =>
    { st with content_buffers := ensure_buffer st.content_buffers i (.toolCall id name []) }
  | .toolCallDelta i delta =>
    { st with content_buffers := applyDelta st.content_buffers i (fun b => match b with
        | .toolCall id name json => some (.toolCall id name (json ++ delta))
        | _ => none) }
  | .toolCallEnd i id name arguments =>
    { st with content_buffers :=
        applyEnd st.content_buffers i (.toolCall id name (jsonToStr arguments)) }
  | .done _ sr usage => { st with stop_reason := some sr, usage := usage }
  | .start _ => st
  | .error _ => st

/-! ## The error taxonomy (`tau-ai/src/error.rs`) -/

/-- Definition: `tau_ai::Error`.  Variants wrapping foreign error types (`reqwest`,
`serde_json`) carry their rendered message. -/
inductive AiError where
  | http : Str → AiError
  | json : Str → AiError
  | api : (error_type : Str) → (message : Str) → AiError
  | rateLimited : Option Nat → AiError
  | auth : Str → AiError
  | invalidApiKey : AiError
  | aborted : AiError
  | sse : Str → AiError
  | unexpectedResponse : Str → AiError
  | modelNotFound : Str → AiError
  | unsupportedProvider : Str → AiError
  | toolExecution : Str → AiError
  | invalidConfig : Str → AiError
  | contextOverflow : Str → AiError

/-- The `Display` rendering of `tau_ai::Error` (the `#[error(...)]`
attributes); `Option<u64>` is rendered with its `Debug` format. -/
def AiError.render : AiError → Str
  | .http e => "HTTP error: ".data ++ e
  | .json e => "JSON error: ".data ++ e
  | .api error_type message =>
    "API error: ".data ++ message ++ " (type: ".data ++ error_type ++ ")".data
  | .rateLimited retry_after =>
    "Rate limited: retry after ".data ++
      (match retry_after with
       | some n => "Some(".data ++ Nat.toDigits 10 n ++ ")".data
       | none => "None".data) ++ " seconds".data
  | .auth s => "Authentication failed: ".data ++ s
  | .invalidApiKey => "Invalid or missing API key".data
  | .aborted => "Request aborted".data
  | .sse s => "SSE error: ".data ++ s
  | .unexpectedResponse s => "Unexpected response: ".data ++ s
  | .modelNotFound s => "Model not found: ".data ++ s
  | .unsupportedProvider s => "Provider not supported: ".data ++ s
  | .toolExecution s => "Tool execution failed: ".data ++ s
  | .invalidConfig s => "Invalid configuration: ".data ++ s
  | .contextOverflow s => "Context overflow: ".data ++ s

/-- Definition: `Error::is_retryable` (`error.rs`, lines 78–97). -/
def AiError.is_retryable : AiError → Bool
  | .http _ => true
  | .rateLimited _ => true
  | .sse _ => true
  | .api error_type message =>
    let et := lowerStr error_type
    let msg := lowerStr message
    hasSub "rate_limit".data et || hasSub "overloaded".data et
      || hasSub "rate limit".data msg || hasSub "overloaded".data msg
      || hasSub "too many requests".data msg || hasSub "529".data msg
  | _ => false

/-- Definition: `Error::is_context_overflow` (`error.rs`, lines 100–120). -/
def AiError.is_context_overflow : AiError → Bool
  | .contextOverflow _ => true
  | .api _ message =>
    let msg := lowerStr message
    hasSub "too many tokens".data msg
      || hasSub "context length".data msg
      || hasSub "context window".data msg
      || hasSub "token limit".data msg
      || hasSub "prompt is too long".data msg
      || hasSub "prompt too long".data msg
      || hasSub "request too large".data msg
      || hasSub "messages too long".data msg
      || hasSub "reduce the length".data msg
      || hasSub "context_length_exceeded".data msg
      || hasSub "content too large".data msg
      || hasSub "input too long".data msg
  | _ => false

/-- Definition: `is_retryable_error` (`tau-agent/src/transport.rs`, lines 83–108):
case-sensitive substring checks, with the capitalised variants the code
lists explicitly. -/
def is_retryable_error (error : Str) : Bool :=
  (hasSub "429".data error || hasSub "rate limit".data error
    || hasSub "Rate limit".data error)
  || (hasSub "timeout".data error || hasSub "Timeout".data error)
  || (hasSub "connection".data error || hasSub "Connection".data error)
  || (hasSub "500".data error || hasSub "502".data error
    || hasSub "503".data error || hasSub "504".data error)
  || (hasSub "overloaded".data error || hasSub "Overloaded".data error)

/-! ## Context-overflow detection on error strings
(`tau-agent/src/transport.rs`, lines 110–171)

The Rust code matches a fixed vocabulary of regexes.  Each regex used there
is a *linear* pattern — a sequence of literals, optional literals (`s?`),
`.?`/`.*`/`.+` gaps, whitespace gaps and word boundaries, with top-level
alternations only — so each is embedded as a token sequence (`RTok`),
alternations being expanded into several sequences.  `mrun` is a
backtracking matcher at a fixed position, structurally recursive on a fuel
argument; every step consumes a pattern token or a subject character, so
`pattern length + subject length + 1` units of fuel are exhaustive, and
`searchFrom` tries every start position with exactly that budget.
Case-insensitive patterns are matched against the lowercased subject.

Scope of the character classes: the `regex` crate compiles `\b`, `\s` and
`(?i)` with Unicode semantics by default (any Unicode letter is a word
character, U+00A0 is whitespace, case folding crosses the ASCII boundary).
The classes below are their restrictions to the ASCII range, on which the
two semantics coincide; accordingly, every theorem about this matcher
either instantiates it at all-ASCII strings or carries an ASCII hypothesis
at the one position where a class is consulted. -/

/-- A word character for `\b`: the ASCII part `[0-9A-Za-z_]` of the
regex-crate word class.  The crate default is Unicode-aware, so a non-ASCII
letter such as `é` is a word character to the program but not here; the
word-boundary theorems below therefore require the character before the
match to be ASCII (where the two readings agree). -/
def isWordChar (c : Char) : Bool :=
  ('a' ≤ c && c ≤ 'z') || ('A' ≤ c && c ≤ 'Z') || ('0' ≤ c && c ≤ '9') || c = '_'

/-- A whitespace character for `\s`: the ASCII part of Unicode
`White_Space` (the crate default also accepts U+00A0 and the other
non-ASCII spaces; no theorem below exercises `\s` on a non-ASCII
character). -/
def isSpaceChar (c : Char) : Bool :=
  c = ' ' || c = '\t' || c = '\n' || c = '\r' || c = '\x0b' || c = '\x0c'

/-- Tokens of a linear regex. -/
inductive RTok where
  | lit : Char → RTok
  | optLit : Char → RTok
  | anyOpt : RTok
  | anyStar : RTok
  | anyPlus : RTok
  | wsPlus : RTok
  | wsStar : RTok
  | colonWsStar : RTok
  | wordB : RTok
deriving DecidableEq

/-- Is the position between `prev` (the character before it, if any) and the
rest of the subject `s` a word boundary? -/
def atBoundary (prev : Option Char) (s : Str) : Bool :=
  (match prev with | none => false | some c => isWordChar c)
    != (match s with | [] => false | c :: _ => isWordChar c)

/-- Match a linear pattern at the current position.  `prev` is the character
just before the position (for `\b`); `fuel` bounds the recursion (see the
section comment: `toks.length + s.length + 1` always suffices). -/
def mrun : Nat → List RTok → Option Char → Str → Bool
  | 0, _, _, _ => false
  | _ + 1, [], _, _ => true
  | fuel + 1, .lit c :: ts, _, s =>
    match s with
    | [] => false
    | x :: rest => if x = c then mrun fuel ts (some x) rest else false
  | fuel + 1, .optLit c :: ts, prev, s =>
    mrun fuel ts prev s ||
      (match s with
       | [] => false
       | x :: rest => if x = c then mrun fuel ts (some x) rest else false)
  | fuel + 1, .anyOpt :: ts, prev, s =>
    mrun fuel ts prev s ||
      (match s with
       | [] => false
       | x :: rest => if x ≠ '\n' then mrun fuel ts (some x) rest else false)
  | fuel + 1, .anyStar :: ts, prev, s =>
    mrun fuel ts prev s ||
      (match s with
       | [] => false
       | x :: rest => if x ≠ '\n' then mrun fuel (.anyStar :: ts) (some x) rest else false)
  | fuel + 1, .anyPlus :: ts, _, s =>
    (match s with
     | [] => false
     | x :: rest => if x ≠ '\n' then mrun fuel (.anyStar :: ts) (some x) rest else false)
  | fuel + 1, .wsPlus :: ts, _, s =>
    (match s with
     | [] => false
     | x :: rest => if isSpaceChar x then mrun fuel (.wsStar :: ts) (some x) rest else false)
  | fuel + 1, .wsStar :: ts, prev, s =>
    mrun fuel ts prev s ||
      (match s with
       | [] => false
       | x :: rest => if isSpaceChar x then mrun fuel (.wsStar :: ts) (some x) rest else false)
  | fuel + 1, .colonWsStar :: ts, prev, s =>
    mrun fuel ts prev s ||
      (match s with
       | [] => false
       | x :: rest =>
         if x = ':' || isSpaceChar x then mrun fuel (.colonWsStar :: ts) (some x) rest
         else false)
  | fuel + 1, .wordB :: ts, prev, s =>
    if atBoundary prev s then mrun fuel ts prev s else false

/-- Try to match `p` at every position of `s`, threading the previous
character for `\b`. -/
def searchFrom (p : List RTok) (prev : Option Char) (s : Str) : Bool :=
  mrun (p.length + s.length + 1) p prev s ||
    match s with
    | [] => false
    | c :: rest => searchFrom p (some c) rest

/-- Definition: `Regex::is_match`: does `p` match anywhere in `s`? -/
def rmatch (p : List RTok) (s : Str) : Bool := searchFrom p none s

/-- Literal tokens from a string. -/
def lits (w : Str) : List RTok := w.map RTok.lit

/-- Definition: `OVERFLOW_PATTERNS` (`transport.rs`, lines 113–153), with each top-level
alternation `(a|b|…)` and optional letter `s?` expanded; commented with the
Rust regex it embeds. -/
def overflowPatterns : List (List RTok) :=
  [ -- (?i)context.?length.?exceed
    lits "context".data ++ [.anyOpt] ++ lits "length".data ++ [.anyOpt] ++ lits "exceed".data,
    -- (?i)maximum.?context.?length
    lits "maximum".data ++ [.anyOpt] ++ lits "context".data ++ [.anyOpt] ++ lits "length".data,
    -- (?i)context.?window.?(exceed|full|limit), expanded
    lits "context".data ++ [.anyOpt] ++ lits "window".data ++ [.anyOpt] ++ lits "exceed".data,
    lits "context".data ++ [.anyOpt] ++ lits "window".data ++ [.anyOpt] ++ lits "full".data,
    lits "context".data ++ [.anyOpt] ++ lits "window".data ++ [.anyOpt] ++ lits "limit".data,
    -- (?i)too.?many.?tokens
    lits "too".data ++ [.anyOpt] ++ lits "many".data ++ [.anyOpt] ++ lits "tokens".data,
    -- (?i)prompt.?is.?too.?long
    lits "prompt".data ++ [.anyOpt] ++ lits "is".data ++ [.anyOpt] ++ lits "too".data ++
      [.anyOpt] ++ lits "long".data,
    -- (?i)input.?too.?long
    lits "input".data ++ [.anyOpt] ++ lits "too".data ++ [.anyOpt] ++ lits "long".data,
    -- (?i)token.?limit.?(exceed|reach), expanded
    lits "token".data ++ [.anyOpt] ++ lits "limit".data ++ [.anyOpt] ++ lits "exceed".data,
    lits "token".data ++ [.anyOpt] ++ lits "limit".data ++ [.anyOpt] ++ lits "reach".data,
    -- (?i)content.?too.?large
    lits "content".data ++ [.anyOpt] ++ lits "too".data ++ [.anyOpt] ++ lits "large".data,
    -- (?i)prompt.?too.?long
    lits "prompt".data ++ [.anyOpt] ++ lits "too".data ++ [.anyOpt] ++ lits "long".data,
    -- (?i)request.?too.?large
    lits "request".data ++ [.anyOpt] ++ lits "too".data ++ [.anyOpt] ++ lits "large".data,
    -- (?i)messages?.?too.?long
    lits "message".data ++ [.optLit 's', .anyOpt] ++ lits "too".data ++ [.anyOpt] ++
      lits "long".data,
    -- (?i)maximum.?number.?of.?tokens
    lits "maximum".data ++ [.anyOpt] ++ lits "number".data ++ [.anyOpt] ++ lits "of".data ++
      [.anyOpt] ++ lits "tokens".data,
    -- (?i)reduce.?the.?length
    lits "reduce".data ++ [.anyOpt] ++ lits "the".data ++ [.anyOpt] ++ lits "length".data,
    -- (?i)context_length_exceeded
    lits "context_length_exceeded".data,
    -- (?i)max_tokens.*(exceed|limit|too|overflow), expanded
    lits "max_tokens".data ++ [.anyStar] ++ lits "exceed".data,
    lits "max_tokens".data ++ [.anyStar] ++ lits "limit".data,
    lits "max_tokens".data ++ [.anyStar] ++ lits "too".data,
    lits "max_tokens".data ++ [.anyStar] ++ lits "overflow".data,
    -- (?i)exceeds?.+token.?limit
    lits "exceed".data ++ [.optLit 's', .anyPlus] ++ lits "token".data ++ [.anyOpt] ++
      lits "limit".data,
    -- (?i)input.?token.?limit
    lits "input".data ++ [.anyOpt] ++ lits "token".data ++ [.anyOpt] ++ lits "limit".data,
    -- (?i)context.?overflow
    lits "context".data ++ [.anyOpt] ++ lits "overflow".data,
    -- (?i)sequence.?too.?long
    lits "sequence".data ++ [.anyOpt] ++ lits "too".data ++ [.anyOpt] ++ lits "long".data,
    -- (?i)context.?size.?exceed
    lits "context".data ++ [.anyOpt] ++ lits "size".data ++ [.anyOpt] ++ lits "exceed".data,
    -- (?i)n_ctx
    lits "n_ctx".data,
    -- (?i)slot.?context.?overflow
    lits "slot".data ++ [.anyOpt] ++ lits "context".data ++ [.anyOpt] ++ lits "overflow".data,
    -- (?i)total.?tokens?.?exceed
    lits "total".data ++ [.anyOpt] ++ lits "token".data ++ [.optLit 's', .anyOpt] ++
      lits "exceed".data,
    -- (?i)max_prompt_tokens
    lits "max_prompt_tokens".data,
    -- \b413\b
    [.wordB] ++ lits "413".data ++ [.wordB] ]

/-- Definition: `HTTP_400_PATTERN`
(`(?i)(?:status|http|error)[:\s]*400\b|\b400\s+bad\s+request`), with the
alternations expanded into four linear patterns. -/
def http400Patterns : List (List RTok) :=
  [ lits "status".data ++ [.colonWsStar] ++ lits "400".data ++ [.wordB],
    lits "http".data ++ [.colonWsStar] ++ lits "400".data ++ [.wordB],
    lits "error".data ++ [.colonWsStar] ++ lits "400".data ++ [.wordB],
    [.wordB] ++ lits "400".data ++ [.wsPlus] ++ lits "bad".data ++ [.wsPlus] ++
      lits "request".data ]

/-- Definition: `is_context_overflow` on error strings (`transport.rs`, lines 160–171):
an HTTP-400 marker together with a token/context/length keyword, or any of
the overflow patterns. -/
def is_context_overflow_str (error : Str) : Bool :=
  let l := lowerStr error
  if (http400Patterns.any (fun p => rmatch p l))
      && (hasSub "token".data l || hasSub "context".data l || hasSub "length".data l) then
    true
  else
    overflowPatterns.any (fun p => rmatch p l)

/-! ## The transport retry decision
(`tau-agent/src/transport.rs`, lines 263–311)

When opening the provider stream fails, the transport first tests
`is_context_overflow` (emit `Error`, never retry), then retryability
(typed check or string fallback) against the attempt budget. -/

/-- What the retry loop does with an open error. -/
inductive OpenDecision where
  | overflowError : OpenDecision
  | retry : OpenDecision
  | fatalError : OpenDecision

/-- The decision taken by the body of the retry loop for an open error `e`
at retry attempt `attempt` (0-based) with budget `max_retries`. -/
def classify_open_error (e : AiError) (attempt max_retries : Nat) : OpenDecision :=
  if e.is_context_overflow then .overflowError
  else if attempt < max_retries && (e.is_retryable || is_retryable_error e.render) then .retry
  else .fatalError

/-! ## Tools, argument validation and dispatch
(`tau-agent/src/tool.rs`, `tau-agent/src/agent.rs` lines 306–347 and
450–525)

A tool is modelled by its name and its `execute` behaviour as a function of
`(tool_call_id, arguments)` (the cancellation token and progress sender do
not influence any claim).  The pre-compiled `jsonschema::Validator` of a
tool is modelled as a function from the argument value to the list of
validation errors it reports (`iter_errors`); `checkSchemaF` below
instantiates it for the object/`properties`/`required`/`type` schema
fragment, modelling the external `jsonschema` crate on that fragment. -/

/-- Definition: `ToolResult` (`tool.rs`). -/
structure ToolResult where
  content : List Content
  is_error : Bool
  details : Option Json := none

/-- Definition: `ToolResult::error`. -/
def ToolResult.mkError (message : Str) : ToolResult :=
  { content := [.text message], is_error := true }

/-- Definition: `ToolResult::text_content`: the text blocks joined with newlines. -/
def ToolResult.textContent (r : ToolResult) : Str :=
  joinSep ['\n'] (r.content.filterMap Content.as_text)

/-- One reported validation error: the instance path (a JSON pointer) and
the rendered message. -/
structure VErr where
  instance_path : Str
  message : Str

/-- A compiled schema validator: `iter_errors` as a function. -/
def Validator := Json → List VErr

/-- Definition: `validate_with_validator` (`agent.rs`, lines 732–756): render each error
as `<instance-path>: <message>` (bare message when the path is empty), join
with newlines under the `Tool argument validation failed:` header; `none`
when the arguments are valid. -/
def validate_with_validator (args : Json) (validator : Validator) : Option Str :=
  let errors := (validator args).map (fun e =>
    if e.instance_path.isEmpty then e.message
    else e.instance_path ++ ": ".data ++ e.message)
  if errors.isEmpty then none
  else some ("Tool argument validation failed:\n".data ++ joinSep ['\n'] errors)

/-- Does a JSON value satisfy a primitive `type` keyword?  (Unknown type
names accept everything; the model restricts numbers to integers, so
`integer` and `number` coincide.) -/
def typeOk (t : Str) (v : Json) : Bool :=
  if t == "object".data then (match v with | .obj _ => true | _ => false)
  else if t == "string".data then (match v with | .str _ => true | _ => false)
  else if t == "integer".data then (match v with | .num _ => true | _ => false)
  else if t == "number".data then (match v with | .num _ => true | _ => false)
  else if t == "boolean".data then (match v with | .bool _ => true | _ => false)
  else if t == "array".data then (match v with | .arr _ => true | _ => false)
  else if t == "null".data then (match v with | .null => true | _ => false)
  else true

/-- The `jsonschema` crate on the `type`/`required`/`properties` fragment:
collect type errors (`<value> is not of type "<type>"`), missing required
properties (`"<name>" is a required property`), and recurse into the
declared properties that are present.  `fuel` bounds the nesting depth. -/
def checkSchemaF : Nat → Json → Str → Json → List VErr
  | 0, _, _, _ => []
  | fuel + 1, schema, path, value =>
    (match schema.get "type".data with
     | some (.str t) =>
       if typeOk t value then []
       else [{ instance_path := path
               message := jsonToStr value ++ " is not of type \"".data ++ t ++ ['"'] }]
     | _ => []) ++
    (match schema.get "required".data, value with
     | some (.arr reqs), .obj _ =>
       reqs.filterMap (fun r => match r with
         | .str rname =>
           if (value.get rname).isNone then
             some { instance_path := path
                    message := '"' :: rname ++ "\" is a required property".data }
           else none
         | _ => none)
     | _, _ => []) ++
    (match schema.get "properties".data, value with
     | some (.obj props), .obj _ =>
       props.flatMap (fun kv => match value.get kv.1 with
         | some sub => checkSchemaF fuel kv.2 (path ++ '/' :: kv.1) sub
         | none => [])
     | _, _ => [])

/-- A tool in the registry: its name and its `execute` behaviour. -/
structure ToolDef where
  name : Str
  execute : Str → Json → ToolResult

/-- The agent state `execute_tool_calls` reads: the registered tools and the
schema-validator cache. -/
structure ToolEnv where
  tools : List ToolDef
  schemaCache : Str → Option Validator

/-- Definition: `DequeueMode` (`agent.rs`). -/
inductive DequeueMode where
  | all : DequeueMode
  | oneAtATime : DequeueMode

/-- Definition: `Agent::drain_queue`: the drained messages and the remaining queue. -/
def drain_queue (mode : DequeueMode) (q : List Message) : List Message × List Message :=
  match mode with
  | .all => (q, [])
  | .oneAtATime =>
    match q with
    | [] => ([], [])
    | m :: rest => ([m], rest)

/-- The observable events of tool execution: the `ToolExecutionStart` /
`ToolExecutionEnd` bus events, plus an `execCall` marker recording each
actual invocation of a tool `execute`. -/
inductive TraceEv where
  | toolStart : (tool_call_id : Str) → (tool_name : Str) → (arguments : Json) → TraceEv
  | toolEnd : (tool_call_id : Str) → (tool_name : Str) → (result : Str) →
      (is_error : Bool) → TraceEv
  | execCall : (tool_call_id : Str) → (tool_name : Str) → TraceEv

/-- The text of a skipped-tool error result. -/
def skippedText : Str := "Skipped due to steering message".data

/-- Definition: `Agent::skip_remaining_tools` (`agent.rs`, lines 322–347): for each
remaining call emit synthetic start/end events (arguments `Null`) and an
error `ToolResult` message. -/
def skip_remaining_tools (calls : List (Str × Str × Json)) : List Message × List TraceEv :=
  (calls.map (fun c => Message.toolResult c.1 c.2.1 [.text skippedText] true 0),
   calls.flatMap (fun c =>
     [TraceEv.toolStart c.1 c.2.1 .null, TraceEv.toolEnd c.1 c.2.1 skippedText true]))

/-- Locating, validating and running one tool call (`agent.rs`, lines
474–502): unknown name and failed validation produce error results without
invoking `execute`; otherwise `execute` runs (recorded by `execCall`). -/
def dispatchToolCall (env : ToolEnv) (id name : Str) (args : Json) :
    ToolResult × List TraceEv :=
  match env.tools.find? (fun t => t.name == name) with
  | none => (ToolResult.mkError ("Tool not found: ".data ++ name), [])
  | some tool =>
    match (env.schemaCache name).bind (fun v => validate_with_validator args v) with
    | some err => (ToolResult.mkError err, [])
    | none => (tool.execute id args, [.execCall id name])

/-- The outcome of `execute_tool_calls`: the tool-result messages (with any
drained steering messages appended), the steered flag, the event trace, and
the steering queue left behind. -/
structure ToolCallsOutcome where
  results : List Message
  steered : Bool
  trace : List TraceEv
  queue : List Message

/-- The loop body of `execute_tool_calls` (`agent.rs`, lines 452–525):
`isFirstIdx` is true exactly at `idx = 0`, where the pre-execution steering
check is skipped. -/
def executeToolCallsGo (env : ToolEnv) (mode : DequeueMode) :
    List (Str × Str × Json) → Bool → List Message → ToolCallsOutcome
  | [], _, queue => { results := [], steered := false, trace := [], queue := queue }
  | (id, name, args) :: rest, isFirstIdx, queue =>
    let pre := if isFirstIdx then ([], queue) else drain_queue mode queue
    if pre.1.isEmpty then
      let d := dispatchToolCall env id name args
      let resultMsg := Message.toolResult id name d.1.content d.1.is_error 0
      let tr := TraceEv.toolStart id name args :: d.2 ++
        [TraceEv.toolEnd id name d.1.textContent d.1.is_error]
      let post := drain_queue mode pre.2
      if post.1.isEmpty then
        let out := executeToolCallsGo env mode rest false post.2
        { results := resultMsg :: out.results, steered := out.steered
          trace := tr ++ out.trace, queue := out.queue }
      else
        let sk := skip_remaining_tools rest
        { results := resultMsg :: (sk.1 ++ post.1), steered := true
          trace := tr ++ sk.2, queue := post.2 }
    else
      let sk := skip_remaining_tools ((id, name, args) :: rest)
      { results := sk.1 ++ pre.1, steered := true, trace := sk.2, queue := pre.2 }

/-- Definition: `Agent::execute_tool_calls`, entered at index 0 with the current
steering queue. -/
def execute_tool_calls (env : ToolEnv) (mode : DequeueMode)
    (calls : List (Str × Str × Json)) (queue : List Message) : ToolCallsOutcome :=
  executeToolCallsGo env mode calls true queue

/-! ## Auxiliary definitions used by the proofs and their witnesses -/

/-- Definition: `ToolResult::text`. -/
def ToolResult.mkText (text : Str) : ToolResult :=
  { content := [.text text], is_error := false }

/-- Definition: `jsonschema::validator_for` on the embedded schema fragment (a fixed
nesting budget of 32 levels, far beyond any schema in the repository). -/
def compileValidator (schema : Json) : Validator :=
  fun value => checkSchemaF 32 schema [] value

/-- Is a trace event an `execCall` marker? -/
def isExecEv : TraceEv → Bool
  | .execCall .. => true
  | _ => false

/-- The character preceding the rest of the subject after traversing `w`:
the last character of `w`, or the previous character `prev` when `w` is
empty.  (Used to thread `\b` context through concatenations.) -/
def prevAfter (w : Str) (prev : Option Char) : Option Char :=
  match w.getLast? with
  | some c => some c
  | none => prev

/-- The `\b400\s+bad\s+request` alternative of `HTTP_400_PATTERN`. -/
def pat400bad : List RTok :=
  [.wordB] ++ lits "400".data ++ [.wsPlus] ++ lits "bad".data ++ [.wsPlus] ++
    lits "request".data

/-- A four-message demonstration conversation (1 estimated token each). -/
def wMsgs : List Message :=
  [Message.mkUser "aaaa".data,
   .assistant [.text "bbbb".data] {},
   Message.mkUser "cccc".data,
   .assistant [.text "dddd".data] {}]

/-- A compaction configuration whose tiny budget forces a cut in `wMsgs`. -/
def wCfg : CompactionConfig :=
  { enabled := true, reserve_tokens := 16384, keep_recent_tokens := 1 }

/-- An oracle whose summarization round trip always answers `S`. -/
def wLlmOk : LlmOracle := fun _ => .done "S".data

/-- An oracle whose summarization round trip always fails to open. -/
def wLlmFail : LlmOracle := fun _ => .openError "boom".data

/-- The demonstration conversation state. -/
def wSt : ConversationState := { messages := wMsgs, previous_summary := none }

/-- What `compact` produces on `wSt` with `wCfg` and `wLlmOk`. -/
def wRes : CompactionResult :=
  { summary := "S".data, first_kept_index := 2, tokens_before := 4,
    read_files := [], modified_files := [] }

/-- What `run_compaction` produces on `wSt` with `wCfg` and `wLlmOk`. -/
def wOut : RunCompactionOutcome :=
  { state := { messages := Message.mkUser "<context-summary>\nS\n</context-summary>".data
                 :: wMsgs.drop 2
               previous_summary := some "S".data }
    result := .ok () }

/-- A demonstration tool whose `execute` answers the text `ok`. -/
def wTool : ToolDef :=
  { name := "tool_a".data, execute := fun _ _ => ToolResult.mkText "ok".data }

/-- A registry with `wTool` and no cached validators. -/
def wEnv : ToolEnv := { tools := [wTool], schemaCache := fun _ => none }

/-- A steering queue holding one message. -/
def wQueue : List Message := [Message.mkUser "steer".data]

/-- The S5 schema: an object requiring a string `path` (and describing an
integer `count`). -/
def s5Schema : Json :=
  .obj [("type".data, .str "object".data),
        ("properties".data,
          .obj [("path".data, .obj [("type".data, .str "string".data)]),
                ("count".data, .obj [("type".data, .str "integer".data)])]),
        ("required".data, .arr [.str "path".data])]

/-- The S5 arguments: `\x7bcount: 5\x7d` with no `path`. -/
def s5Args : Json := .obj [("count".data, .num 5)]

/-- The S5 tool. -/
def s5Tool : ToolDef :=
  { name := "s5tool".data, execute := fun _ _ => ToolResult.mkText "ran".data }

/-- A registry holding `s5Tool` with its compiled S5 schema. -/
def s5Env : ToolEnv :=
  { tools := [s5Tool]
    schemaCache := fun name =>
      if name == "s5tool".data then some (compileValidator s5Schema) else none }

/-- The single validation error the S5 scenario reports. -/
def s5Err : VErr :=
  { instance_path := [], message := '"' :: "path".data ++ "\" is a required property".data }

/-- An API error that is simultaneously retryable (by its error type) and a
context overflow (by its message). -/
def c2Err : AiError := .api "rate_limit_error".data "too many tokens".data

/-- A builder state holding one text buffer. -/
def c7St : MessageBuilder := { content_buffers := [.text "a".data] }

/-- A tool-result message whose text is 1999 ASCII characters followed by a
three-byte character: its UTF-8 length is 2002 > 2000, and byte 2000 falls
inside the final character. -/
def c8Msg : Message :=
  .toolResult "id1".data "toolx".data [.text (List.replicate 1999 'a' ++ ['€'])] false 0

/-- Tool-call arguments with a 102-byte string value whose byte 100 falls
inside a multi-byte character. -/
def c8Args : Json := .obj [("k".data, .str (List.replicate 99 'a' ++ ['€', 'x']))]

/-! # Theorems -/

/-! ## Claim C9: token estimation is additive over concatenation -/

theorem estfold (l : List Message) : ∀ a : Nat, a < M32 →
    l.foldl (fun acc m => (acc + estimate_tokens m) % M32) a
      = (a + (l.map estimate_tokens).sum) % M32 := by
  induction l with
  | nil => intro a ha; simp [Nat.mod_eq_of_lt ha]
  | cons m l ih =>
    intro a ha
    simp only [List.foldl_cons, List.map_cons, List.sum_cons]
    rw [ih _ (Nat.mod_lt _ (by decide)), Nat.mod_add_mod, Nat.add_assoc]

/-- Claim C9: `estimate_total_tokens` distributes over list concatenation:
the estimate of `xs ++ ys` is the (`u32`, i.e. modulo `2^32`) sum of the
estimates of `xs` and of `ys` — exactly the `+` the Rust code computes.
Since per-message estimates are divided by 4 *before* summation, the sum
over a concatenation is the sum of the two partial sums. -/
theorem C9_estimate_total_tokens_additive (xs ys : List Message) :
    estimate_total_tokens (xs ++ ys)
      = (estimate_total_tokens xs + estimate_total_tokens ys) % M32 := by
  have h0 : (0 : Nat) < M32 := by decide
  have hx : estimate_total_tokens xs = (xs.map estimate_tokens).sum % M32 := by
    unfold estimate_total_tokens; simpa using estfold xs 0 h0
  have hy : estimate_total_tokens ys = (ys.map estimate_tokens).sum % M32 := by
    unfold estimate_total_tokens; simpa using estfold ys 0 h0
  have hxy : estimate_total_tokens (xs ++ ys)
      = ((xs.map estimate_tokens).sum + (ys.map estimate_tokens).sum) % M32 := by
    unfold estimate_total_tokens
    rw [List.foldl_append]
    have hlt : estimate_total_tokens xs < M32 := by rw [hx]; exact Nat.mod_lt _ h0
    rw [show (List.foldl (fun acc m => (acc + estimate_tokens m) % M32) 0 xs)
        = estimate_total_tokens xs from rfl]
    rw [estfold ys _ hlt, hx, Nat.mod_add_mod]
  rw [hxy, hx, hy]
  generalize (xs.map estimate_tokens).sum = sx
  generalize (ys.map estimate_tokens).sum = sy
  simp [M32, Nat.add_mod]

/-! ## Claim C5: the cut point never lands on a `ToolResult` -/

theorem skipToolResults_spec (l : List Message) (h : skipToolResults l < l.length) :
    ∃ m, l[skipToolResults l]? = some m ∧ (isUserMsg m = true ∨ isAssistantMsg m = true) := by
  induction l with
  | nil => simp at h
  | cons m rest ih =>
    by_cases htr : isToolResultMsg m = true
    · have hs : skipToolResults (m :: rest) = 1 + skipToolResults rest := by
        simp [skipToolResults, htr]
      rw [hs] at h ⊢
      have : skipToolResults rest < rest.length := by
        simp [List.length_cons] at h; omega
      obtain ⟨m2, hm2, hk⟩ := ih this
      refine ⟨m2, ?_, hk⟩
      simpa [Nat.add_comm] using hm2
    · have hs : skipToolResults (m :: rest) = 0 := by
        simp [skipToolResults, htr]
      rw [hs]
      refine ⟨m, by simp, ?_⟩
      cases m with
      | user _ _ => exact Or.inl rfl
      | assistant _ _ => exact Or.inr rfl
      | toolResult _ _ _ _ _ => exact absurd rfl htr

/-- Claim C5:  Whenever `find_cut_point` answers a cut, the message at
`first_kept_index` exists and is a `User` or an `Assistant` message — never
a `ToolResult`. -/
theorem C5_cut_point_not_tool_result (messages : List Message) (K : Nat)
    (cut : CutPointResult) (h : find_cut_point messages K = some cut) :
    ∃ m, messages[cut.first_kept_index]? = some m
      ∧ (isUserMsg m = true ∨ isAssistantMsg m = true) := by
  simp only [find_cut_point] at h
  split at h
  · exact absurd h (by simp)
  · split at h
    · exact absurd h (by simp)
    · split at h
      · exact absurd h (by simp)
      · rename_i cut_index heq
        split at h
        · exact absurd h (by simp)
        · rename_i h4
          rw [Option.some_inj] at h
          subst h
          have hlt : skipToolResults (messages.drop cut_index)
              < (messages.drop cut_index).length := by
            simp only [List.length_drop]; omega
          obtain ⟨m, hm, hk⟩ := skipToolResults_spec _ hlt
          refine ⟨m, ?_, hk⟩
          show messages[cut_index + skipToolResults (messages.drop cut_index)]? = some m
          rw [← List.getElem?_drop]
          exact hm

theorem C5_witness :
    find_cut_point wMsgs 1 = some ⟨2, none, false⟩
    ∧ ∃ m, wMsgs[(2 : Nat)]? = some m ∧ (isUserMsg m = true ∨ isAssistantMsg m = true) := by
  refine ⟨rfl, ?_⟩
  have := C5_cut_point_not_tool_result wMsgs 1 ⟨2, none, false⟩ rfl
  simpa using this

/-! ## Claim C1: compaction replaces the prefix and keeps the suffix intact -/

/-- Claim C1:  When `compact` succeeds with cut index `k = r.first_kept_index`
and `run_compaction` returns, the conversation is exactly one synthetic user
message — the summary wrapped in `<context-summary>` tags — followed by the
old `messages[k..]`; in particular the new `messages[0]` is a `User` message
and the kept suffix is pointwise unchanged. -/
theorem C1_compaction_replaces_messages (st : ConversationState)
    (cfg : CompactionConfig) (llm : LlmOracle) (r : CompactionResult)
    (out : RunCompactionOutcome)
    (hc : compact st.messages cfg llm st.previous_summary = some (.ok r))
    (h : run_compaction st cfg llm = some out) :
    out.state.messages
        = Message.mkUser ("<context-summary>\n".data ++ r.summary ++
            "\n</context-summary>".data) :: st.messages.drop r.first_kept_index
      ∧ (∃ m0, out.state.messages[(0 : Nat)]? = some m0 ∧ isUserMsg m0 = true)
      ∧ (∀ i : Nat, out.state.messages[i + 1]? = st.messages[r.first_kept_index + i]?)
      ∧ out.state.previous_summary = some r.summary
      ∧ out.result = .ok () := by
  have hrun : run_compaction st cfg llm
      = if r.first_kept_index ≤ st.messages.length
        then some { state :=
                      { messages := Message.mkUser ("<context-summary>\n".data ++ r.summary ++
                          "\n</context-summary>".data) :: st.messages.drop r.first_kept_index
                        previous_summary := some r.summary }
                    result := .ok () }
        else none := by
    unfold run_compaction
    rw [hc]
  rw [hrun] at h
  split at h
  · rw [Option.some_inj] at h
    subst h
    refine ⟨rfl, ⟨Message.mkUser ("<context-summary>\n".data ++ r.summary ++
      "\n</context-summary>".data), by simp, rfl⟩, ?_, rfl, rfl⟩
    intro i
    simp only [List.getElem?_cons_succ]
    exact List.getElem?_drop _ _ _
  · exact absurd h (by simp)

theorem C1_witness :
    compact wSt.messages wCfg wLlmOk wSt.previous_summary = some (.ok wRes)
    ∧ run_compaction wSt wCfg wLlmOk = some wOut
    ∧ wOut.state.messages
        = Message.mkUser ("<context-summary>\n".data ++ wRes.summary ++
            "\n</context-summary>".data) :: wSt.messages.drop wRes.first_kept_index
    ∧ (∃ m0, wOut.state.messages[(0 : Nat)]? = some m0 ∧ isUserMsg m0 = true)
    ∧ (∀ i : Nat, wOut.state.messages[i + 1]? = wSt.messages[wRes.first_kept_index + i]?)
    ∧ wOut.state.previous_summary = some wRes.summary := by
  have hc : compact wSt.messages wCfg wLlmOk wSt.previous_summary = some (.ok wRes) := rfl
  have h : run_compaction wSt wCfg wLlmOk = some wOut := rfl
  have main := C1_compaction_replaces_messages wSt wCfg wLlmOk wRes wOut hc h
  exact ⟨hc, h, main.1, main.2.1, main.2.2.1, main.2.2.2.1⟩

/-! ## Claim C10: compaction is atomic on failure -/

/-- Claim C10:  When `compact` fails (no valid cut point, or the nested
summarization LLM call fails), `run_compaction` returns the `Compaction`
error and leaves the conversation state — `messages` and
`previous_summary` — exactly unchanged. -/
theorem C10_compaction_atomic_on_failure (st : ConversationState)
    (cfg : CompactionConfig) (llm : LlmOracle) (e : Str)
    (hc : compact st.messages cfg llm st.previous_summary = some (.error e)) :
    run_compaction st cfg llm = some { state := st, result := .error (.compaction e) } := by
  unfold run_compaction
  rw [hc]

theorem C10_witness :
    compact wSt.messages wCfg wLlmFail wSt.previous_summary
        = some (.error "Compaction LLM call failed: boom".data)
    ∧ run_compaction wSt wCfg wLlmFail
        = some { state := wSt
                 result := .error (.compaction "Compaction LLM call failed: boom".data) } := by
  have hc : compact wSt.messages wCfg wLlmFail wSt.previous_summary
      = some (.error "Compaction LLM call failed: boom".data) := rfl
  exact ⟨hc, C10_compaction_atomic_on_failure wSt wCfg wLlmFail _ hc⟩

/-! ## Claim C7: `*End` events without a prior `*Start` -/

/-- Claim C7, counterexample:  On a fresh builder, a `TextEnd` at index 0 — an
index with no prior `Start` and beyond the buffer list — is dropped: no
content block exists at index 0 afterwards, contradicting
"create-or-replace". -/
theorem C7_counterexample :
    (process_event {} (.textEnd 0 "hi".data)).content_buffers = []
    ∧ (process_event {} (.textEnd 0 "hi".data)).content_buffers[(0 : Nat)]? = none := by
  exact ⟨rfl, rfl⟩

/-- Claim C7, amended:  A `TextEnd`, `ThinkingEnd` or `ToolCallEnd` at an index
*below* the current buffer count acts as replace — the block at that index
afterwards holds the final content of the event, whether or not a `Start`
was seen for it; at an index at or beyond the buffer count the event is a
no-op (the builder state is unchanged, so no block is created). -/
theorem C7_end_event_replaces_in_range (st : MessageBuilder) (i : Nat)
    (text thinking id name : Str) (args : Json) :
    (i < st.content_buffers.length →
      (process_event st (.textEnd i text)).content_buffers[i]? = some (.text text)
      ∧ (process_event st (.thinkingEnd i thinking)).content_buffers[i]?
          = some (.thinking thinking)
      ∧ (process_event st (.toolCallEnd i id name args)).content_buffers[i]?
          = some (.toolCall id name (jsonToStr args)))
    ∧ (st.content_buffers.length ≤ i →
      process_event st (.textEnd i text) = st
      ∧ process_event st (.thinkingEnd i thinking) = st
      ∧ process_event st (.toolCallEnd i id name args) = st) := by
  constructor
  · intro hlt
    refine ⟨?_, ?_, ?_⟩ <;>
      simp [process_event, applyEnd, hlt, List.getElem?_set_self',
        List.getElem?_eq_getElem, hlt]
  · intro hge
    have hnot : ¬ i < st.content_buffers.length := by omega
    refine ⟨?_, ?_, ?_⟩ <;> simp [process_event, applyEnd, hnot]

theorem C7_witness :
    ((process_event c7St (.textEnd 0 "T".data)).content_buffers[(0 : Nat)]?
        = some (.text "T".data)
      ∧ (process_event c7St (.thinkingEnd 0 "K".data)).content_buffers[(0 : Nat)]?
          = some (.thinking "K".data)
      ∧ (process_event c7St (.toolCallEnd 0 "i".data "n".data .null)).content_buffers[(0 : Nat)]?
          = some (.toolCall "i".data "n".data (jsonToStr .null)))
    ∧ (process_event c7St (.textEnd 5 "T".data) = c7St
      ∧ process_event c7St (.thinkingEnd 5 "K".data) = c7St
      ∧ process_event c7St (.toolCallEnd 5 "i".data "n".data .null) = c7St) := by
  constructor
  · exact (C7_end_event_replaces_in_range c7St 0 "T".data "K".data "i".data "n".data .null).1
      (by decide)
  · exact (C7_end_event_replaces_in_range c7St 5 "T".data "K".data "i".data "n".data .null).2
      (by decide)

/-! ## Claim C2: retryable and context-overflow are not mutually exclusive -/

/-- Claim C2, counterexample:  The API error with type `rate_limit_error` and
message `too many tokens` satisfies both typed predicates at once, and the
string `429 too many tokens` satisfies both string-level predicates at
once: the two classifications are not mutually exclusive as predicates. -/
theorem C2_counterexample :
    c2Err.is_retryable = true ∧ c2Err.is_context_overflow = true
    ∧ is_retryable_error "429 too many tokens".data = true
    ∧ is_context_overflow_str "429 too many tokens".data = true := by
  exact ⟨rfl, rfl, rfl, rfl⟩

/-- Claim C2, amended:  The predicates can hold simultaneously, but the
transport decides the fate of an open error by testing `is_context_overflow`
*first*: an error classified as context overflow always takes the
overflow-error path and is never retried, at any attempt count and budget. -/
theorem C2_overflow_never_retried (e : AiError) (attempt max_retries : Nat)
    (h : e.is_context_overflow = true) :
    classify_open_error e attempt max_retries = .overflowError
    ∧ classify_open_error e attempt max_retries ≠ .retry := by
  unfold classify_open_error
  rw [h]
  exact ⟨rfl, by simp⟩

theorem C2_witness :
    classify_open_error c2Err 0 3 = .overflowError
    ∧ classify_open_error c2Err 0 3 ≠ .retry := by
  exact C2_overflow_never_retried c2Err 0 3 rfl

/-! ## Claim C8: summary truncation slices bytes, not code points -/

theorem slice_bytes_a_pad (s : Str) (k : Nat) (hk : 0 < k) (h : sliceBytes s k = none) :
    ∀ n, sliceBytes (List.replicate n 'a' ++ s) (n + k) = none := by
  intro n
  induction n with
  | zero => simpa using h
  | succ n ih =>
    have hsplit : List.replicate (n + 1) 'a' ++ s = 'a' :: (List.replicate n 'a' ++ s) := by
      simp [List.replicate_succ]
    rw [hsplit, show n + 1 + k = (n + k) + 1 by omega]
    have ha : ('a').utf8Size = 1 := rfl
    simp only [sliceBytes, ha]
    rw [if_pos (by omega)]
    simp [ih]

theorem utf8Len_append (a b : Str) : utf8Len (a ++ b) = utf8Len a + utf8Len b := by
  simp [utf8Len]

theorem utf8Len_replicate (n : Nat) (c : Char) :
    utf8Len (List.replicate n c) = n * c.utf8Size := by
  simp [utf8Len, List.map_replicate, List.sum_replicate, smul_eq_mul]

theorem c8_text_len : utf8Len (List.replicate 1999 'a' ++ ['€']) = 2002 := by
  rw [utf8Len_append, utf8Len_replicate]
  rw [show ('a').utf8Size = 1 from rfl, show utf8Len ['€'] = 3 from rfl]

theorem c8_slice_none : sliceBytes (List.replicate 1999 'a' ++ ['€']) 2000 = none := by
  have h1 : sliceBytes ['€'] 1 = none := rfl
  have h := slice_bytes_a_pad ['€'] 1 (by decide) h1 1999
  rwa [show 1999 + 1 = 2000 from rfl] at h

theorem c8_serialize_one : serializeOneMessage c8Msg = none := by
  simp only [c8Msg, serializeOneMessage, content_to_text, List.filterMap_cons,
    List.filterMap_nil, joinSep]
  rw [c8_text_len]
  rw [if_pos (by norm_num)]
  rw [c8_slice_none]
  rfl


set_option maxRecDepth 8000 in
/-- Claim C8:  The truncation in `serialize_messages_for_summary` (and in
`format_tool_args`) operates on *byte* indices: on a tool result whose text
is 1999 ASCII characters followed by one three-byte character, the slice
`&text[..2000]` falls inside the final character and the function panics
(`none` in the model); likewise `&s[..100]` in `format_tool_args` on a
string argument whose byte 100 is inside a multi-byte character.  The code
is therefore not total and not code-point based, as the specification
requires. -/
theorem C8_truncation_panics_on_multibyte :
    serialize_messages_for_summary [c8Msg] = none
    ∧ format_tool_args c8Args = none := by
  constructor
  · have hm : List.mapM serializeOneMessage [c8Msg] = none := by
      show List.mapM.loop serializeOneMessage [c8Msg] [] = none
      simp only [List.mapM.loop]
      rw [c8_serialize_one]
      rfl
    unfold serialize_messages_for_summary
    rw [hm]
    rfl
  · rfl


/-! ## Claim C6: schema-validation failures never reach `execute` -/

theorem drain_queue_nil (mode : DequeueMode) : drain_queue mode [] = ([], []) := by
  cases mode <;> rfl

/-- Claim C6:  When a tool is found but its cached validator rejects the
arguments, the dispatch appends an error `ToolResult` whose text is the
`Tool argument validation failed:` header followed by the
newline-separated list of `<json-pointer>: <message>` entries (the pointer
is omitted when it is empty), and the tool `execute` is never invoked (no
`execCall` appears in the trace). -/
theorem C6_validation_failure_skips_execute (env : ToolEnv) (mode : DequeueMode)
    (id name : Str) (args : Json) (tool : ToolDef) (v : Validator) (errs : List VErr)
    (hfind : env.tools.find? (fun t => t.name == name) = some tool)
    (hcache : env.schemaCache name = some v)
    (hv : v args = errs) (hne : errs ≠ []) :
    execute_tool_calls env mode [(id, name, args)] []
      = { results := [Message.toolResult id name
            [.text ("Tool argument validation failed:\n".data ++
              joinSep ['\n'] (errs.map (fun e =>
                if e.instance_path.isEmpty then e.message
                else e.instance_path ++ ": ".data ++ e.message)))] true 0]
          steered := false
          trace := [.toolStart id name args,
            .toolEnd id name ("Tool argument validation failed:\n".data ++
              joinSep ['\n'] (errs.map (fun e =>
                if e.instance_path.isEmpty then e.message
                else e.instance_path ++ ": ".data ++ e.message))) true]
          queue := [] } := by
  have hval : validate_with_validator args v
      = some ("Tool argument validation failed:\n".data ++
          joinSep ['\n'] (errs.map (fun e =>
            if e.instance_path.isEmpty then e.message
            else e.instance_path ++ ": ".data ++ e.message))) := by
    unfold validate_with_validator
    rw [hv]
    rw [if_neg (by simpa using hne)]
  simp only [execute_tool_calls, executeToolCallsGo, if_true, List.isEmpty_nil,
    dispatchToolCall, hfind, hcache, Option.some_bind, hval, drain_queue_nil]
  simp [ToolResult.mkError, ToolResult.textContent, joinSep]

theorem C6_witness :
    execute_tool_calls s5Env .all [("c1".data, "s5tool".data, s5Args)] []
      = { results := [Message.toolResult "c1".data "s5tool".data
            [.text ("Tool argument validation failed:\n".data ++
              joinSep ['\n'] ([s5Err].map (fun e =>
                if e.instance_path.isEmpty then e.message
                else e.instance_path ++ ": ".data ++ e.message)))] true 0]
          steered := false
          trace := [.toolStart "c1".data "s5tool".data s5Args,
            .toolEnd "c1".data "s5tool".data ("Tool argument validation failed:\n".data ++
              joinSep ['\n'] ([s5Err].map (fun e =>
                if e.instance_path.isEmpty then e.message
                else e.instance_path ++ ": ".data ++ e.message))) true]
          queue := [] }
    ∧ hasSub "validation failed".data ("Tool argument validation failed:\n".data ++
        joinSep ['\n'] ([s5Err].map (fun e =>
          if e.instance_path.isEmpty then e.message
          else e.instance_path ++ ": ".data ++ e.message))) = true
    ∧ hasSub "path".data ("Tool argument validation failed:\n".data ++
        joinSep ['\n'] ([s5Err].map (fun e =>
          if e.instance_path.isEmpty then e.message
          else e.instance_path ++ ": ".data ++ e.message))) = true := by
  refine ⟨?_, rfl, rfl⟩
  exact C6_validation_failure_skips_execute s5Env .all "c1".data "s5tool".data s5Args
    s5Tool (compileValidator s5Schema) [s5Err] rfl rfl rfl (List.cons_ne_nil _ _)

/-! ## Claim C4: a pre-enqueued steering message skips the second tool -/

theorem drain_queue_ne_nil (mode : DequeueMode) (q : List Message) (h : q ≠ []) :
    (drain_queue mode q).1.isEmpty = false := by
  cases mode <;> cases q <;> simp_all [drain_queue]

/-- Claim C4:  With a steering message already enqueued and an assistant turn
carrying two tool calls (the first resolving to a registered tool whose
arguments validate), the first tool `execute` runs exactly once (the trace
holds a single `execCall`, for the first call), the second tool is never
executed and instead receives the error result `Skipped due to steering
message` with synthetic start/end events, the drained steering messages are
appended after the two tool results, and the turn reports `steered`. -/
theorem C4_steering_skips_second_tool (env : ToolEnv) (mode : DequeueMode)
    (queue : List Message) (id1 n1 : Str) (a1 : Json) (id2 n2 : Str) (a2 : Json)
    (t1 : ToolDef) (hq : queue ≠ [])
    (hfind : env.tools.find? (fun t => t.name == n1) = some t1)
    (hval : (env.schemaCache n1).bind (fun v => validate_with_validator a1 v) = none) :
    (execute_tool_calls env mode [(id1, n1, a1), (id2, n2, a2)] queue).results
        = Message.toolResult id1 n1 (t1.execute id1 a1).content (t1.execute id1 a1).is_error 0
          :: Message.toolResult id2 n2 [.text skippedText] true 0
          :: (drain_queue mode queue).1
      ∧ (execute_tool_calls env mode [(id1, n1, a1), (id2, n2, a2)] queue).steered = true
      ∧ (execute_tool_calls env mode [(id1, n1, a1), (id2, n2, a2)] queue).trace
          = [.toolStart id1 n1 a1, .execCall id1 n1,
             .toolEnd id1 n1 (t1.execute id1 a1).textContent (t1.execute id1 a1).is_error,
             .toolStart id2 n2 .null, .toolEnd id2 n2 skippedText true]
      ∧ (execute_tool_calls env mode [(id1, n1, a1), (id2, n2, a2)] queue).trace.filter isExecEv
          = [.execCall id1 n1] := by
  have hout : execute_tool_calls env mode [(id1, n1, a1), (id2, n2, a2)] queue
      = { results := Message.toolResult id1 n1 (t1.execute id1 a1).content
              (t1.execute id1 a1).is_error 0
            :: Message.toolResult id2 n2 [.text skippedText] true 0
            :: (drain_queue mode queue).1
          steered := true
          trace := [.toolStart id1 n1 a1, .execCall id1 n1,
            .toolEnd id1 n1 (t1.execute id1 a1).textContent (t1.execute id1 a1).is_error,
            .toolStart id2 n2 .null, .toolEnd id2 n2 skippedText true]
          queue := (drain_queue mode queue).2 } := by
    simp only [execute_tool_calls, executeToolCallsGo, if_true, List.isEmpty_nil,
      dispatchToolCall, hfind, hval, drain_queue_ne_nil mode queue hq,
      skip_remaining_tools]
    simp [skip_remaining_tools]
  rw [hout]
  refine ⟨rfl, rfl, rfl, ?_⟩
  simp [isExecEv]

theorem C4_witness :
    (execute_tool_calls wEnv .all [("c1".data, "tool_a".data, .null),
        ("c2".data, "tool_b".data, .null)] wQueue).results
        = Message.toolResult "c1".data "tool_a".data
            (wTool.execute "c1".data .null).content
            (wTool.execute "c1".data .null).is_error 0
          :: Message.toolResult "c2".data "tool_b".data [.text skippedText] true 0
          :: (drain_queue .all wQueue).1
      ∧ (execute_tool_calls wEnv .all [("c1".data, "tool_a".data, .null),
          ("c2".data, "tool_b".data, .null)] wQueue).steered = true
      ∧ (execute_tool_calls wEnv .all [("c1".data, "tool_a".data, .null),
          ("c2".data, "tool_b".data, .null)] wQueue).trace
          = [.toolStart "c1".data "tool_a".data .null, .execCall "c1".data "tool_a".data,
             .toolEnd "c1".data "tool_a".data (wTool.execute "c1".data .null).textContent
               (wTool.execute "c1".data .null).is_error,
             .toolStart "c2".data "tool_b".data .null,
             .toolEnd "c2".data "tool_b".data skippedText true]
      ∧ (execute_tool_calls wEnv .all [("c1".data, "tool_a".data, .null),
          ("c2".data, "tool_b".data, .null)] wQueue).trace.filter isExecEv
          = [.execCall "c1".data "tool_a".data] := by
  exact C4_steering_skips_second_tool wEnv .all wQueue "c1".data "tool_a".data .null
    "c2".data "tool_b".data .null wTool (List.cons_ne_nil _ _) rfl rfl

/-! ## Claim C3: HTTP-400 overflow detection needs a word boundary -/

theorem mrun_mono : ∀ (f : Nat) {g : Nat} (p : List RTok) (prev : Option Char) (s : Str),
    f ≤ g → mrun f p prev s = true → mrun g p prev s = true := by
  intro f
  induction f with
  | zero => intro g p prev s _ h; simp [mrun] at h
  | succ f ih =>
    intro g p prev s hfg h
    obtain ⟨g', rfl⟩ : ∃ g', g = g' + 1 := ⟨g - 1, by omega⟩
    have hf : f ≤ g' := by omega
    cases p with
    | nil => simp [mrun]
    | cons t ts =>
      cases t with
      | lit c =>
        cases s with
        | nil => simp [mrun] at h
        | cons x rest =>
          simp only [mrun] at h ⊢
          split at h
          · rename_i hx
            rw [if_pos hx]
            exact ih _ _ _ hf h
          · exact absurd h (by simp)
      | optLit c =>
        simp only [mrun, Bool.or_eq_true] at h ⊢
        rcases h with h | h
        · exact Or.inl (ih _ _ _ hf h)
        · right
          cases s with
          | nil => simp at h
          | cons x rest =>
            simp only at h ⊢
            split at h
            · rename_i hx; rw [if_pos hx]; exact ih _ _ _ hf h
            · exact absurd h (by simp)
      | anyOpt =>
        simp only [mrun, Bool.or_eq_true] at h ⊢
        rcases h with h | h
        · exact Or.inl (ih _ _ _ hf h)
        · right
          cases s with
          | nil => simp at h
          | cons x rest =>
            simp only at h ⊢
            split at h
            · rename_i hx; rw [if_pos hx]; exact ih _ _ _ hf h
            · exact absurd h (by simp)
      | anyStar =>
        simp only [mrun, Bool.or_eq_true] at h ⊢
        rcases h with h | h
        · exact Or.inl (ih _ _ _ hf h)
        · right
          cases s with
          | nil => simp at h
          | cons x rest =>
            simp only at h ⊢
            split at h
            · rename_i hx; rw [if_pos hx]; exact ih _ _ _ hf h
            · exact absurd h (by simp)
      | anyPlus =>
        cases s with
        | nil => simp [mrun] at h
        | cons x rest =>
          simp only [mrun] at h ⊢
          split at h
          · rename_i hx; rw [if_pos hx]; exact ih _ _ _ hf h
          · exact absurd h (by simp)
      | wsPlus =>
        cases s with
        | nil => simp [mrun] at h
        | cons x rest =>
          simp only [mrun] at h ⊢
          split at h
          · rename_i hx; rw [if_pos hx]; exact ih _ _ _ hf h
          · exact absurd h (by simp)
      | wsStar =>
        simp only [mrun, Bool.or_eq_true] at h ⊢
        rcases h with h | h
        · exact Or.inl (ih _ _ _ hf h)
        · right
          cases s with
          | nil => simp at h
          | cons x rest =>
            simp only at h ⊢
            split at h
            · rename_i hx; rw [if_pos hx]; exact ih _ _ _ hf h
            · exact absurd h (by simp)
      | colonWsStar =>
        simp only [mrun, Bool.or_eq_true] at h ⊢
        rcases h with h | h
        · exact Or.inl (ih _ _ _ hf h)
        · right
          cases s with
          | nil => simp at h
          | cons x rest =>
            simp only at h ⊢
            split at h
            · rename_i hx; rw [if_pos hx]; exact ih _ _ _ hf h
            · exact absurd h (by simp)
      | wordB =>
        simp only [mrun] at h ⊢
        split at h
        · rename_i hx; rw [if_pos hx]; exact ih _ _ _ hf h
        · exact absurd h (by simp)

theorem prevAfter_cons (c : Char) (w : Str) (prev : Option Char) :
    prevAfter (c :: w) prev = prevAfter w (some c) := by
  cases w with
  | nil => rfl
  | cons d w' =>
    simp only [prevAfter, List.getLast?_cons_cons]
    cases hl : (d :: w').getLast? with
    | none => simp at hl
    | some e => rfl

theorem mrun_lits (w : Str) (ts : List RTok) (s : Str) (f : Nat) :
    ∀ prev, mrun f ts (prevAfter w prev) s = true →
      mrun (w.length + f) (lits w ++ ts) prev (w ++ s) = true := by
  induction w with
  | nil => intro prev h; simpa [prevAfter, lits] using h
  | cons c w ih =>
    intro prev h
    have h2 := ih (some c) (by rwa [prevAfter_cons] at h)
    have hlen : (c :: w).length + f = (w.length + f) + 1 := by
      simp [List.length_cons]; omega
    rw [hlen]
    show mrun ((w.length + f) + 1) (.lit c :: (lits w ++ ts)) prev (c :: (w ++ s)) = true
    simp only [mrun]
    simpa using h2

theorem mrun_ws_step (ts : List RTok) (prev : Option Char) (s : Str) (f : Nat)
    (h : mrun f ts (some ' ') s = true) :
    mrun (f + 2) (.wsPlus :: ts) prev (' ' :: s) = true := by
  show mrun ((f + 1) + 1) (.wsPlus :: ts) prev (' ' :: s) = true
  simp only [mrun]
  rw [if_pos (show isSpaceChar ' ' = true from rfl)]
  simp only [mrun, Bool.or_eq_true]
  exact Or.inl h

theorem mrun_wordB_step (ts : List RTok) (prev : Option Char) (s : Str) (f : Nat)
    (hb : atBoundary prev s = true) (h : mrun f ts prev s = true) :
    mrun (f + 1) (.wordB :: ts) prev s = true := by
  simp only [mrun]
  rw [if_pos hb]
  exact h

theorem search_shift (p : List RTok) (pre : Str) : ∀ (rest : Str) (prev : Option Char),
    mrun (p.length + rest.length + 1) p (prevAfter pre prev) rest = true →
    searchFrom p prev (pre ++ rest) = true := by
  induction pre with
  | nil =>
    intro rest prev h
    show searchFrom p prev rest = true
    unfold searchFrom
    simp only [prevAfter, List.getLast?_nil] at h
    simp [h]
  | cons c pre ih =>
    intro rest prev h
    show searchFrom p prev (c :: (pre ++ rest)) = true
    unfold searchFrom
    have h2 := ih rest (some c) (by rwa [prevAfter_cons] at h)
    simp [h2]

theorem c3_match_core (r : Str) (pv : Option Char)
    (hb : (match pv with | none => false | some c => isWordChar c) = false) :
    mrun 19 pat400bad pv ("400 bad request".data ++ r) = true := by
  have h0 : mrun 1 [] (prevAfter "request".data (some ' ')) r = true := rfl
  have h1 : mrun 8 (lits "request".data) (some ' ') ("request".data ++ r) = true :=
    mrun_lits "request".data [] r 1 (some ' ') h0
  have h2 : mrun 10 (.wsPlus :: lits "request".data) (some 'd')
      (' ' :: ("request".data ++ r)) = true :=
    mrun_ws_step (lits "request".data) (some 'd') ("request".data ++ r) 8 h1
  have h3 : mrun 13 (lits "bad".data ++ (.wsPlus :: lits "request".data)) (some '0')
      ("bad".data ++ (' ' :: ("request".data ++ r))) = true :=
    mrun_lits "bad".data (.wsPlus :: lits "request".data)
      (' ' :: ("request".data ++ r)) 10 (some '0') h2
  have h4 : mrun 15 (.wsPlus :: (lits "bad".data ++ (.wsPlus :: lits "request".data))) pv
      (' ' :: ("bad".data ++ (' ' :: ("request".data ++ r)))) = true :=
    mrun_ws_step _ pv _ 13 h3
  have h5 : mrun 18
      (lits "400".data ++ (.wsPlus :: (lits "bad".data ++ (.wsPlus :: lits "request".data)))) pv
      ("400".data ++ (' ' :: ("bad".data ++ (' ' :: ("request".data ++ r))))) = true :=
    mrun_lits "400".data _ _ 15 pv h4
  have h6 : atBoundary pv ("400".data ++ (' ' :: ("bad".data ++ (' ' :: ("request".data ++ r)))))
      = true := by
    simp only [atBoundary]
    rw [hb]
    rfl
  exact mrun_wordB_step _ pv _ 18 h6 h5

/-- Claim C3, counterexample:  `x400 bad request token` contains the substring
`400 bad request` (case-insensitively) together with `token`, yet
`is_context_overflow` rejects it: the regex demands a word boundary before
`400` (`\b400\s+bad\s+request`), and `x` is a word character. -/
theorem C3_counterexample :
    hasSub "400 bad request".data (lowerStr "x400 bad request token".data) = true
    ∧ hasSub "token".data (lowerStr "x400 bad request token".data) = true
    ∧ is_context_overflow_str "x400 bad request token".data = false := by
  exact ⟨rfl, rfl, rfl⟩

/-- Claim C3, amended:  For every string whose lowercase form contains
`400 bad request` at the start of the string or immediately after an
*ASCII* character outside `[0-9A-Za-z_]`, together with one of the
substrings `token`, `context` or `length` (case-insensitively),
`is_context_overflow` answers true; bare `400 Bad Request: invalid field`
and bare `max_tokens` answer false.  Both restrictions on the preceding
character are forced by the regex `\b400\s+bad\s+request`: a word
character before `400` defeats the boundary (`x400 bad request token`),
and since the crate compiles `\b` with Unicode semantics, so does a
non-ASCII letter (`é400 bad request token` is likewise rejected by the
program).  At an absent or ASCII non-word predecessor the Unicode and
ASCII readings of `\b` coincide, so the matcher here agrees with the
program on every instance of this statement. -/
theorem C3_http400_overflow_detection :
    (∀ (s p r : Str),
      lowerStr s = p ++ "400 bad request".data ++ r →
      (p.getLast?.all fun c => decide (c.val < 0x80) && !isWordChar c) = true →
      (hasSub "token".data (lowerStr s) || hasSub "context".data (lowerStr s)
        || hasSub "length".data (lowerStr s)) = true →
      is_context_overflow_str s = true)
    ∧ is_context_overflow_str "400 Bad Request: invalid field".data = false
    ∧ is_context_overflow_str "max_tokens".data = false := by
  refine ⟨?_, rfl, rfl⟩
  intro s p r hdec hb hkw
  have hpv : (match prevAfter p none with
      | none => false | some c => isWordChar c) = false := by
    unfold prevAfter
    cases hp : p.getLast? with
    | none => rfl
    | some c =>
      rw [hp] at hb
      simp [Option.all] at hb
      simpa using hb.2
  have hcore := c3_match_core r (prevAfter p none) hpv
  have hlen : pat400bad.length = 16 := rfl
  have hlift : mrun (pat400bad.length + ("400 bad request".data ++ r).length + 1) pat400bad
      (prevAfter p none) ("400 bad request".data ++ r) = true := by
    apply mrun_mono 19 _ _ _ _ hcore
    rw [hlen]
    simp [List.length_append]
    omega
  have hsearch : searchFrom pat400bad none (p ++ ("400 bad request".data ++ r)) = true :=
    search_shift pat400bad p ("400 bad request".data ++ r) none hlift
  have hrm : rmatch pat400bad (lowerStr s) = true := by
    unfold rmatch
    rw [hdec, List.append_assoc]
    exact hsearch
  have hA : http400Patterns.any (fun pt => rmatch pt (lowerStr s)) = true :=
    List.any_eq_true.mpr ⟨pat400bad, by decide, hrm⟩
  simp only [is_context_overflow_str]
  rw [hA, hkw]
  simp

theorem C3_witness :
    lowerStr "a 400 bad request length".data
        = "a ".data ++ "400 bad request".data ++ " length".data
    ∧ is_context_overflow_str "a 400 bad request length".data = true := by
  refine ⟨rfl, ?_⟩
  exact C3_http400_overflow_detection.1 "a 400 bad request length".data
    "a ".data " length".data rfl rfl rfl
